import Mathlib

/-!
Verification development for the Twinkle Eval Analyzer parsing pipeline
(`app.py`): the byte decoder `_decode_bytes_to_text`, the document parser
`read_twinkle_doc`, the record extractor `extract_records` and the corpus
loader `load_all`.

Modelling conventions:
* JSON values are a `JSON` inductive; objects are association lists in
  insertion order (Python `dict` preserves insertion order; duplicate keys
  keep the first position with the last value, mirrored by `dictInsert`).
* Numbers are exact rationals `ℚ`.  Python floats round to binary64 and
  `float`/`json` accept `nan`/`inf` spellings; none of the verified claims
  depend on rounding or on non-finite values, and those spellings are
  rejected by the embedded coercions.
* Python exceptions are an explicit `PyErr` value threaded through
  `Except`; an embedded function returns `.error e` exactly where the
  source line would raise.
* The UTF-16/Big5/CP950 codecs are not re-implemented; they enter as
  opaque candidate functions (`LegacyDecoders`) so that the decoder
  theorems quantify over their behaviour.
-/

namespace TwinkleSpec

set_option maxRecDepth 65536

/-- Python exception classes that the modelled code can raise. -/
inductive PyErr where
  | typeError
  | attributeError
  | valueError (msg : String)
  | unboundLocal
deriving DecidableEq

/-- JSON values as produced by `json.loads`: `null`, booleans, numbers
(exact rationals), strings, arrays and objects (ordered key/value lists). -/
inductive JSON where
  | null
  | bool (b : Bool)
  | num (q : ℚ)
  | str (s : String)
  | arr (xs : List JSON)
  | obj (kvs : List (String × JSON))

/-- `Except.isOk` as a plain boolean. -/
def isOkE {α : Type} : Except PyErr α → Bool
  | .ok _ => true
  | .error _ => false

/-- Sequencing in the exception monad: a raised exception propagates,
otherwise the continuation runs (explicit `Except.bind`). -/
def exSeq {α β : Type} (x : Except PyErr α) (f : α → Except PyErr β) :
    Except PyErr β :=
  match x with
  | .error e => .error e
  | .ok a => f a

/-- `d[k] = v` on a Python dict rendered as an association list: an existing
key keeps its position and gets the new value, a new key is appended. -/
def dictInsert {α : Type} (kvs : List (String × α)) (k : String) (v : α) :
    List (String × α) :=
  if kvs.any (fun kv => kv.1 == k) then
    kvs.map (fun kv => if kv.1 == k then (k, v) else kv)
  else kvs ++ [(k, v)]

/-- Raw lookup: `d[k]` as an `Option` (association lists built by the parser
have unique keys, so the first hit is the binding). -/
def jget (kvs : List (String × JSON)) (k : String) : Option JSON :=
  (kvs.find? (fun kv => kv.1 == k)).map (fun kv => kv.2)

/-- `k in d` for a Python dict. -/
def hasKey (kvs : List (String × JSON)) (k : String) : Bool :=
  kvs.any (fun kv => kv.1 == k)

/-- `d.get(k)` followed by an `is None` test: Python conflates an absent key
with a stored `null`, so both map to `none`. -/
def pyGetOpt (kvs : List (String × JSON)) (k : String) : Option JSON :=
  match jget kvs k with
  | some .null => none
  | o => o

/-- Collapse duplicate keys the way `dict(pairs)` does: first position,
last value. -/
def pyDict (kvs : List (String × JSON)) : List (String × JSON) :=
  kvs.foldl (fun acc kv => dictInsert acc kv.1 kv.2) []

/-- Python truthiness of a JSON-shaped value. -/
def pyTruthy : JSON → Bool
  | .null => false
  | .bool b => b
  | .num q => decide (q ≠ 0)
  | .str s => decide (s ≠ "")
  | .arr xs => !xs.isEmpty
  | .obj kvs => !kvs.isEmpty

/-- `iter(x)` on a JSON-shaped value: lists yield elements, strings yield
one-character strings, dicts yield their keys; everything else raises
`TypeError` (`none`). -/
def pyIter : JSON → Option (List JSON)
  | .arr xs => some xs
  | .str s => some (s.data.map (fun c => JSON.str (String.mk [c])))
  | .obj kvs => some (kvs.map (fun kv => JSON.str kv.1))
  | _ => none

/-- Does `pat` occur as a contiguous substring of `s` (character lists)? -/
def hasSubseq (pat cs : List Char) : Bool :=
  cs.tails.any (fun t => pat.isPrefixOf t)

/-- `needle in x` for a JSON-shaped `x`: key test on dicts, substring test
on strings, element-equality test on lists; `TypeError` (`none`) on
numbers, booleans and `null`. -/
def pyContains (needle : String) : JSON → Option Bool
  | .obj kvs => some (hasKey kvs needle)
  | .str s => some (hasSubseq needle.data s.data)
  | .arr xs => some (xs.any (fun x => match x with
      | .str t => t == needle
      | _ => false))
  | _ => none

/-! ## Python string helpers -/

/-- The whitespace set of Python `str.strip()` (ASCII part). -/
def pyWs (c : Char) : Bool :=
  c = ' ' || c = '\t' || c = '\n' || c = '\r' || c = '\x0b' || c = '\x0c'

/-- `str.strip()` on a character list. -/
def pyStripL (cs : List Char) : List Char :=
  ((cs.dropWhile pyWs).reverse.dropWhile pyWs).reverse

/-- `text.strip()`. -/
def pyStripStr (s : String) : String := String.mk (pyStripL s.data)

/-- `line.rstrip(",")`: removes the whole run of trailing commas. -/
def rstripComma (s : String) : String :=
  String.mk ((s.data.reverse.dropWhile (fun c => c = ',')).reverse)

/-- Removing at most one trailing comma — the reading used by the spec
sentence "strip ... a single trailing comma" (for comparison with
`rstripComma`, which the code actually performs). -/
def rstripOneComma (s : String) : String :=
  match s.data.reverse with
  | ',' :: rest => String.mk rest.reverse
  | _ => s

/-- `str.splitlines()` restricted to the `\n`, `\r\n` and `\r` boundaries
(the exotic Unicode boundaries are not modelled; no input here uses them). -/
def splitLinesAux : List Char → List Char → List (List Char)
  | [], acc => if acc.isEmpty then [] else [acc.reverse]
  | '\r' :: '\n' :: rest, acc => acc.reverse :: splitLinesAux rest []
  | '\n' :: rest, acc => acc.reverse :: splitLinesAux rest []
  | '\r' :: rest, acc => acc.reverse :: splitLinesAux rest []
  | c :: rest, acc => splitLinesAux rest (c :: acc)

/-- `text.splitlines()`. -/
def splitLinesStr (t : String) : List String :=
  (splitLinesAux t.data []).map String.mk

/-- `s.strip("/")`: both ends, whole runs. -/
def stripSlashL (cs : List Char) : List Char :=
  ((cs.dropWhile (fun c => c = '/')).reverse.dropWhile (fun c => c = '/')).reverse

/-- The suffix after the first occurrence of `sep`, or the input unchanged
when `sep` does not occur. -/
def afterFirst (sep : List Char) : List Char → List Char
  | [] => []
  | c :: rest =>
    if sep.isPrefixOf (c :: rest) then (c :: rest).drop sep.length
    else afterFirst sep rest

/-- The suffix after the last occurrence of `sep` (fuel-driven iteration of
`afterFirst`); equals `s.split(sep)[-1]` for a non-empty, non-overlapping
separator such as `"datasets/"`. -/
def afterLastAux : Nat → List Char → List Char → List Char
  | 0, _, cs => cs
  | f + 1, sep, cs =>
    if hasSubseq sep cs then afterLastAux f sep (afterFirst sep cs) else cs

/-- `ds_path.split("datasets/")[-1].strip("/") if ds_path.startswith("datasets/")
else ds_path` — app.py line 57. -/
def dsName (p : String) : String :=
  if ("datasets/".data).isPrefixOf p.data then
    String.mk (stripSlashL (afterLastAux (p.data.length + 1) ("datasets/".data) p.data))
  else p

/-- The dataset-name rule as the spec states it: the *leading* `datasets/`
prefix stripped, then surrounding slashes stripped; the raw path otherwise. -/
def specDatasetName (p : String) : String :=
  if ("datasets/".data).isPrefixOf p.data then
    String.mk (stripSlashL (p.data.drop ("datasets/".data).length))
  else p

/-- `PurePosixPath(s).name`: the last path component, with empty and `"."`
components dropped. -/
def posixName (s : String) : String :=
  match ((s.data.splitOn '/').filter
      (fun c => !c.isEmpty && c ≠ ['.'])).getLast? with
  | some c => String.mk c
  | none => ""

/-- `fname.rsplit(".", 1)[0]`: everything before the last dot, or the whole
name when there is no dot. -/
def removeExt (s : String) : String :=
  if s.data.contains '.' then
    String.mk ((s.data.reverse.dropWhile (fun c => c ≠ '.')).tail.reverse)
  else s

/-! ## Numbers -/

/-- ASCII digit test. -/
def isDigitC (c : Char) : Bool := '0' ≤ c && c ≤ '9'

/-- Value of a digit string. -/
def digitsVal (ds : List Char) : Nat :=
  ds.foldl (fun a c => a * 10 + (c.toNat - 48)) 0

/-- Leading run of digits and the rest. -/
def spanDigits (cs : List Char) : List Char × List Char :=
  (cs.takeWhile isDigitC, cs.dropWhile isDigitC)

/-- Assemble `sign * (ip . fp) * 10^expn` as an exact rational: the mantissa
`ip ++ fp` over `10^|fp|`, scaled by the exponent, through the normalizing
constructor `mkRat` (kept reducible so concrete parses evaluate). -/
def ratOfParts (neg : Bool) (ip fp : List Char) (expn : Int) : ℚ :=
  let m : Nat := digitsVal ip * 10 ^ fp.length + digitsVal fp
  let sgn : Int := if neg then -(m : Int) else (m : Int)
  if 0 ≤ expn then mkRat (sgn * (10 : Int) ^ expn.toNat) (10 ^ fp.length)
  else mkRat sgn (10 ^ fp.length * 10 ^ (-expn).toNat)

/-- The unsigned tail of a JSON number (after an optional minus sign):
`int frac? exp?` with the strict `json` grammar (no leading zeros, a dot
and an exponent marker are consumed only when followed by digits). -/
def parseNumTail (s1 : List Char) : Option (ℚ × List Char × Bool) :=
  match s1.head? with
  | none => none
  | some c =>
    if !isDigitC c then none else
    let (ip, r1) := spanDigits s1
    if ip.head? = some '0' && ip.length ≠ 1 then none else
    let (fp, r2) : List Char × List Char :=
      match r1 with
      | '.' :: r =>
        let p := spanDigits r
        if p.1.isEmpty then ([], r1) else (p.1, p.2)
      | _ => ([], r1)
    let (expn, r3) : Int × List Char :=
      match r2 with
      | e :: rest =>
        if e = 'e' || e = 'E' then
          let (sgn, rest1) : Int × List Char :=
            match rest with
            | '+' :: rr => (1, rr)
            | '-' :: rr => (-1, rr)
            | _ => (1, rest)
          let p := spanDigits rest1
          if p.1.isEmpty then (0, r2) else (sgn * (digitsVal p.1 : Int), p.2)
        else (0, r2)
      | _ => (0, r2)
    some (ratOfParts false ip fp expn, r3, true)

/-- A JSON number literal starting at `s` (sign included). -/
def parseNum (s : List Char) : Option (ℚ × List Char) :=
  match s with
  | '-' :: r =>
    (parseNumTail r).map (fun p => (-p.1, p.2.1))
  | _ =>
    (parseNumTail s).map (fun p => (p.1, p.2.1))

/-- `float(str)` for the strings Python's `float` accepts, restricted to
finite decimal literals: optional surrounding whitespace, optional sign,
digits with an optional dot (either side may be empty but not both) and an
optional exponent.  (`inf`/`nan` spellings and `_` separators are rejected;
no verified claim depends on them.) -/
def pyFloatOfStr (s : String) : Option ℚ :=
  let cs := pyStripL s.data
  let (neg, s1) : Bool × List Char :=
    match cs with
    | '-' :: r => (true, r)
    | '+' :: r => (false, r)
    | _ => (false, cs)
  let (ip, r1) := spanDigits s1
  let (fp, r2) : List Char × List Char :=
    match r1 with
    | '.' :: r => spanDigits r
    | _ => ([], r1)
  if ip.isEmpty && fp.isEmpty then none else
  let (hasExp, expn, r3) : Bool × Int × List Char :=
    match r2 with
    | e :: rest =>
      if e = 'e' || e = 'E' then
        let (sgn, rest1) : Int × List Char :=
          match rest with
          | '+' :: rr => (1, rr)
          | '-' :: rr => (-1, rr)
          | _ => (1, rest)
        let p := spanDigits rest1
        if p.1.isEmpty then (false, 0, r2) else (true, sgn * (digitsVal p.1 : Int), p.2)
      else (false, 0, r2)
    | _ => (false, 0, r2)
  if hasExp && r3 ≠ [] then none else
  if !hasExp && r2 ≠ [] then none else
  some (ratOfParts neg ip fp expn)

/-- `float(x)` on a JSON-shaped value: numbers pass through, booleans become
`0`/`1`, numeric strings are parsed; `null`, lists and dicts raise
`TypeError`, non-numeric strings raise `ValueError`. -/
def floatCoerce : JSON → Except PyErr ℚ
  | .num q => .ok q
  | .bool b => .ok (if b then 1 else 0)
  | .str s =>
    match pyFloatOfStr s with
    | some q => .ok q
    | none => .error (.valueError "could not convert string to float")
  | _ => .error .typeError

/-- `str(x)` for the values that can reach the f-string in
`extract_records`; the numeric and container reprs are simplified (no claim
formats a non-string model name or timestamp). -/
def pyStr : JSON → String
  | .str s => s
  | .null => "None"
  | .bool b => if b then "True" else "False"
  | .num q => if q.den = 1 then toString q.num else toString q
  | .arr _ => "[...]"
  | .obj _ => "\x7b...\x7d"

/-! ## The JSON parser (`json.loads`)

A faithful executable model of the strict `json` module grammar on the
inputs exercised here: the six value forms, the four whitespace characters,
string escapes (`\uXXXX` without surrogate pairs), no trailing commas, no
`NaN`/`Infinity` literals, and the whole input must be consumed. -/

/-- JSON inter-token whitespace. -/
def jsonWs (c : Char) : Bool := c = ' ' || c = '\t' || c = '\n' || c = '\r'

/-- Skip inter-token whitespace. -/
def skipWs : List Char → List Char
  | [] => []
  | c :: cs => if jsonWs c then skipWs cs else c :: cs

/-- Hex digit value. -/
def hexVal (c : Char) : Option Nat :=
  if '0' ≤ c && c ≤ '9' then some (c.toNat - 48)
  else if 'a' ≤ c && c ≤ 'f' then some (c.toNat - 87)
  else if 'A' ≤ c && c ≤ 'F' then some (c.toNat - 55)
  else none

/-- The body of a JSON string literal (after the opening quote): returns the
decoded characters and the input after the closing quote.  Strict mode:
raw control characters are rejected; `\uXXXX` surrogate halves are not
modelled. -/
def parseStrAux : Nat → List Char → Option (List Char × List Char)
  | 0, _ => none
  | _ + 1, [] => none
  | f + 1, c :: rest =>
    if c = '"' then some ([], rest)
    else if c = '\\' then
      match rest with
      | [] => none
      | e :: rest2 =>
        let esc : Option (Char × List Char) :=
          if e = '"' then some ('"', rest2)
          else if e = '\\' then some ('\\', rest2)
          else if e = '/' then some ('/', rest2)
          else if e = 'n' then some ('\n', rest2)
          else if e = 't' then some ('\t', rest2)
          else if e = 'r' then some ('\r', rest2)
          else if e = 'b' then some ('\x08', rest2)
          else if e = 'f' then some ('\x0c', rest2)
          else if e = 'u' then
            match rest2 with
            | h1 :: h2 :: h3 :: h4 :: rest3 =>
              match hexVal h1, hexVal h2, hexVal h3, hexVal h4 with
              | some a, some b, some c3, some d =>
                let cp := ((a * 16 + b) * 16 + c3) * 16 + d
                if 0xD800 ≤ cp && cp < 0xE000 then none
                else some (Char.ofNat cp, rest3)
              | _, _, _, _ => none
            | _ => none
          else none
        match esc with
        | some (ch, r) => (parseStrAux f r).map (fun p => (ch :: p.1, p.2))
        | none => none
    else if c.toNat < 0x20 then none
    else (parseStrAux f rest).map (fun p => (c :: p.1, p.2))

mutual

/-- One JSON value starting at the (whitespace-skipped) input. -/
def parseVal : Nat → List Char → Option (JSON × List Char)
  | 0, _ => none
  | f + 1, s =>
    match skipWs s with
    | 'n' :: 'u' :: 'l' :: 'l' :: r => some (.null, r)
    | 't' :: 'r' :: 'u' :: 'e' :: r => some (.bool true, r)
    | 'f' :: 'a' :: 'l' :: 's' :: 'e' :: r => some (.bool false, r)
    | '"' :: r => (parseStrAux (r.length + 1) r).map
        (fun p => (.str (String.mk p.1), p.2))
    | '[' :: r =>
      (match skipWs r with
       | ']' :: r2 => some (.arr [], r2)
       | _ => (parseItems f r).map (fun p => (.arr p.1, p.2)))
    | '\x7b' :: r =>
      (match skipWs r with
       | '\x7d' :: r2 => some (.obj [], r2)
       | _ => (parseFields f r).map (fun p => (.obj (pyDict p.1), p.2)))
    | s' => (parseNum s').map (fun p => (.num p.1, p.2))

/-- Comma-separated JSON values terminated by `]` (at least one value). -/
def parseItems : Nat → List Char → Option (List JSON × List Char)
  | 0, _ => none
  | f + 1, s =>
    match parseVal f s with
    | none => none
    | some (v, r) =>
      match skipWs r with
      | ',' :: r2 => (parseItems f r2).map (fun p => (v :: p.1, p.2))
      | ']' :: r2 => some ([v], r2)
      | _ => none

/-- Comma-separated `"key": value` pairs terminated by `}` (at least one). -/
def parseFields : Nat → List Char → Option (List (String × JSON) × List Char)
  | 0, _ => none
  | f + 1, s =>
    match skipWs s with
    | '"' :: r =>
      match parseStrAux (r.length + 1) r with
      | none => none
      | some (k, r1) =>
        match skipWs r1 with
        | ':' :: r2 =>
          (match parseVal f r2 with
           | none => none
           | some (v, r3) =>
             match skipWs r3 with
             | ',' :: r4 => (parseFields f r4).map
                 (fun p => ((String.mk k, v) :: p.1, p.2))
             | '\x7d' :: r4 => some ([(String.mk k, v)], r4)
             | _ => none)
        | _ => none
    | _ => none

end

/-- `json.loads(t)`: one value, then only whitespace to the end of input. -/
def json_loads (t : String) : Option JSON :=
  match parseVal (2 * t.length + 2) t.data with
  | some (v, r) => if (skipWs r).isEmpty then some v else none
  | none => none

/-! ## Decoder (`_decode_bytes_to_text`, app.py lines 17-23) -/

/-- One UTF-8 scalar value from the head of a byte list (standard strict
rules: no continuation-byte starts, no overlongs, no surrogates, max
`U+10FFFF`). -/
def utf8Next : List Nat → Option (Nat × List Nat)
  | [] => none
  | b :: bs =>
    if b < 0x80 then some (b, bs)
    else if b < 0xC2 then none
    else if b < 0xE0 then
      match bs with
      | c1 :: bs' =>
        if 0x80 ≤ c1 && c1 < 0xC0 then some ((b - 0xC0) * 0x40 + (c1 - 0x80), bs')
        else none
      | _ => none
    else if b < 0xF0 then
      match bs with
      | c1 :: c2 :: bs' =>
        if (0x80 ≤ c1 && c1 < 0xC0) && (0x80 ≤ c2 && c2 < 0xC0) then
          let cp := (b - 0xE0) * 0x1000 + (c1 - 0x80) * 0x40 + (c2 - 0x80)
          if cp < 0x800 then none
          else if 0xD800 ≤ cp && cp < 0xE000 then none
          else some (cp, bs')
        else none
      | _ => none
    else if b < 0xF5 then
      match bs with
      | c1 :: c2 :: c3 :: bs' =>
        if (0x80 ≤ c1 && c1 < 0xC0) && (0x80 ≤ c2 && c2 < 0xC0)
            && (0x80 ≤ c3 && c3 < 0xC0) then
          let cp := (b - 0xF0) * 0x40000 + (c1 - 0x80) * 0x1000
            + (c2 - 0x80) * 0x40 + (c3 - 0x80)
          if cp < 0x10000 || 0x110000 ≤ cp then none else some (cp, bs')
        else none
      | _ => none
    else none

/-- Strict UTF-8 decoding of a whole byte list. -/
def utf8StrictAux : Nat → List Nat → Option (List Char)
  | _, [] => some []
  | 0, _ => none
  | f + 1, bs =>
    match utf8Next bs with
    | none => none
    | some (cp, rest) => (utf8StrictAux f rest).map (fun cs => Char.ofNat cp :: cs)

/-- `b.decode("utf-8")`: `none` models `UnicodeDecodeError`. -/
def utf8Strict (bs : List Nat) : Option String :=
  (utf8StrictAux (bs.length + 1) bs).map String.mk

/-- Lossy UTF-8 decoding: undecodable bytes are dropped (approximates
`errors="ignore"`, which drops the invalid portion). -/
def utf8LossyAux : Nat → List Nat → List Char
  | _, [] => []
  | 0, _ => []
  | f + 1, bs =>
    match utf8Next bs with
    | some (cp, rest) => Char.ofNat cp :: utf8LossyAux f rest
    | none => utf8LossyAux f bs.tail

/-- `b.decode("utf-8", errors="ignore")`: total. -/
def utf8Lossy (bs : List Nat) : String := String.mk (utf8LossyAux (bs.length + 1) bs)

/-- The five codecs of the candidate list that are not re-implemented here
(`utf-16`, `utf-16le`, `utf-16be`, `big5`, `cp950`); each is an arbitrary
partial decoding function, `none` modelling a decode error. -/
structure LegacyDecoders where
  utf16 : List Nat → Option String
  utf16le : List Nat → Option String
  utf16be : List Nat → Option String
  big5 : List Nat → Option String
  cp950 : List Nat → Option String

/-- `_decode_bytes_to_text` (app.py lines 17-23): try the candidates in
order, return the first success, fall back to lossy UTF-8. -/
def _decode_bytes_to_text (L : LegacyDecoders) (b : List Nat) : String :=
  match utf8Strict b with
  | some s => s
  | none =>
    match L.utf16 b with
    | some s => s
    | none =>
      match L.utf16le b with
      | some s => s
      | none =>
        match L.utf16be b with
        | some s => s
        | none =>
          match L.big5 b with
          | some s => s
          | none =>
            match L.cp950 b with
            | some s => s
            | none => utf8Lossy b

/-- The ordered candidate list of the source's `for enc in (...)` loop. -/
def decodeCands (L : LegacyDecoders) : List (List Nat → Option String) :=
  [utf8Strict, L.utf16, L.utf16le, L.utf16be, L.big5, L.cp950]

/-- First success of an ordered candidate list. -/
def tryCands : List (List Nat → Option String) → List Nat → Option String
  | [], _ => none
  | d :: ds, b =>
    match d b with
    | some s => some s
    | none => tryCands ds b

/-! ## DocumentParser (`read_twinkle_doc`, app.py lines 25-48) -/

/-- The loop body of the line-recovery fallback (app.py lines 35-43):
`line.strip().rstrip(",")`, skip if blank, else try `json.loads`. -/
def procLine (line : String) : Option JSON :=
  let l := rstripComma (pyStripStr line)
  if l = "" then none else json_loads l

/-- The loop body as the spec words it: strip whitespace and a *single*
trailing comma (the source strips the whole run). -/
def specProcLine (line : String) : Option JSON :=
  let l := rstripOneComma (pyStripStr line)
  if l = "" then none else json_loads l

/-- First line that parses; later lines are not inspected. -/
def firstParsed : List String → Option JSON
  | [] => none
  | l :: ls =>
    match procLine l with
    | some v => some v
    | none => firstParsed ls

/-- The value bound to `obj` after lines 32-43 of app.py, for the already
stripped text: the whole-text parse if it succeeds, else the first line
that parses; `none` means `obj` was never assigned. -/
def obtainedVal (t : String) : Option JSON :=
  match json_loads t with
  | some v => some v
  | none => firstParsed (splitLinesStr t)

/-- Lines 44-48 of app.py: reject a non-mapping value, reject a mapping
lacking a required field, return the mapping otherwise. -/
def validateDoc : JSON → Except PyErr (List (String × JSON))
  | .obj kvs =>
    if hasKey kvs "timestamp" && hasKey kvs "config" && hasKey kvs "dataset_results"
    then .ok kvs
    else .error (.valueError "缺少必要欄位")
  | _ => .error (.valueError "檔案不是有效的 Twinkle Eval JSON 物件。")

/-- `read_twinkle_doc` on decoded text (app.py lines 31-48).  When no parse
attempt succeeded, the Python local `obj` is unbound and line 44 raises
`UnboundLocalError` — not the `ValueError` the validation was written to
raise. -/
def read_twinkle_doc_text (text : String) : Except PyErr (List (String × JSON)) :=
  match obtainedVal (pyStripStr text) with
  | none => .error .unboundLocal
  | some v => validateDoc v

/-! ## RecordExtractor (`extract_records`, app.py lines 50-82) -/

/-- One output row of the extractor. -/
structure Record where
  dataset : String
  category : String
  file : String
  accuracy_mean : ℚ
  source_label : String

/-- `float(np.mean(vals))` as an exact rational mean. -/
def listMean (l : List ℚ) : ℚ := l.sum / (l.length : ℚ)

/-- `.get("model", {})` on the value of `config`: raises `AttributeError`
when that value is not a mapping. -/
def modelOf (cfg : JSON) : Except PyErr JSON :=
  match cfg with
  | .obj ckvs => .ok ((jget ckvs "model").getD (.obj []))
  | _ => .error .attributeError

/-- `.get("name", "<unknown>")` on the model value: raises
`AttributeError` when that value is not a mapping. -/
def nameOf (mdl : JSON) : Except PyErr JSON :=
  match mdl with
  | .obj mkvs => .ok ((jget mkvs "name").getD (.str "<unknown>"))
  | _ => .error .attributeError

/-- `f"{model} @ {timestamp}"` from app.py lines 51-53, with the raising
`.get` chain on a non-mapping `config` or `model`. -/
def sourceLabel (doc : List (String × JSON)) : Except PyErr String :=
  exSeq (modelOf ((jget doc "config").getD (.obj []))) (fun mdl =>
    exSeq (nameOf mdl) (fun model =>
      .ok (pyStr model ++ " @ " ++ pyStr ((jget doc "timestamp").getD (.str "<no-ts>")))))

/-- The per-item body of the `for item in results` loop (app.py lines
60-75): non-mapping items and items with a missing or `null` `file` or
`accuracy_mean` are skipped; a non-string `file` raises in
`PurePosixPath`, a non-coercible `accuracy_mean` raises in `float`. -/
def procItemRow (sl dsn : String) : JSON → Except PyErr (Option Record)
  | .obj kvs =>
    (match pyGetOpt kvs "file", pyGetOpt kvs "accuracy_mean" with
     | some fv, some av =>
       (match fv with
        | .str fp =>
          (match floatCoerce av with
           | .error e => .error e
           | .ok q =>
             let fn := posixName fp
             .ok (some ⟨dsn, removeExt fn, fn, q, sl⟩))
        | _ => .error .typeError)
     | _, _ => .ok none)
  | _ => .ok none

/-- The whole `for item in results` loop, in order. -/
def rowsOfItems (sl dsn : String) : List JSON → Except PyErr (List Record)
  | [] => .ok []
  | it :: rest =>
    exSeq (procItemRow sl dsn it) (fun r =>
      exSeq (rowsOfItems sl dsn rest) (fun rs => .ok (r.toList ++ rs)))

/-- `float(it.get("accuracy_mean", np.nan))` for an item already known to
contain `accuracy_mean` (hence `.get` on a non-dict container raises
`AttributeError`, and the `np.nan` default is never taken). -/
def avgValsGet : JSON → Except PyErr ℚ
  | .obj kvs => floatCoerce ((jget kvs "accuracy_mean").getD .null)
  | _ => .error .attributeError

/-- The average comprehension of app.py line 77:
`[float(it.get("accuracy_mean", np.nan)) for it in results if "accuracy_mean" in it]`.
The membership test raises `TypeError` on non-container items, `.get`
raises `AttributeError` on non-dict containers, `float` raises on
non-coercible values — all faithfully threaded. -/
def avgVals : List JSON → Except PyErr (List ℚ)
  | [] => .ok []
  | it :: rest =>
    match pyContains "accuracy_mean" it with
    | none => .error .typeError
    | some false => avgVals rest
    | some true =>
      exSeq (avgValsGet it) (fun q =>
        exSeq (avgVals rest) (fun qs => .ok (q :: qs)))

/-- The per-dataset loop body (app.py lines 56-79): rows of this dataset
and the value to be stored in the average map (`none` = no entry). -/
def extractDataset (sl p : String) (payload : JSON) :
    Except PyErr (List Record × Option JSON) :=
  let dsn := dsName p
  let avgMeta0 : Option JSON :=
    match payload with
    | .obj kvs => pyGetOpt kvs "average_accuracy"
    | _ => none
  let resultsVal : JSON :=
    match payload with
    | .obj kvs => (jget kvs "results").getD (.arr [])
    | _ => .arr []
  match pyIter resultsVal with
  | none => .error .typeError
  | some items =>
    exSeq (rowsOfItems sl dsn items) (fun rows =>
      match avgMeta0 with
      | some v => .ok (rows, some v)
      | none =>
        if pyTruthy resultsVal then
          exSeq (avgVals items) (fun vals =>
            .ok (rows, if vals.isEmpty then none else some (.num (listMean vals))))
        else .ok (rows, none))

/-- The `for ds_path, ds_payload in ...items()` loop with the row and
average-map accumulators. -/
def extractLoop (sl : String) :
    List (String × JSON) → List Record → List (String × JSON) →
    Except PyErr (List Record × List (String × JSON))
  | [], rows, avg => .ok (rows, avg)
  | (p, payload) :: rest, rows, avg =>
    exSeq (extractDataset sl p payload) (fun pr =>
      extractLoop sl rest (rows ++ pr.1)
        (match pr.2 with
         | some v => dictInsert avg (dsName p) v
         | none => avg))

/-- `extract_records` (app.py lines 50-82). -/
def extract_records (doc : List (String × JSON)) :
    Except PyErr (List Record × List (String × JSON)) :=
  exSeq (sourceLabel doc) (fun sl =>
    match (jget doc "dataset_results").getD (.obj []) with
    | .obj dss => extractLoop sl dss [] []
    | _ => .error .attributeError)

/-! ## CorpusLoader (`load_all`, app.py lines 84-100) -/

/-- An uploaded file handle: a display name and either text or raw bytes. -/
structure UFile where
  name : String
  content : String ⊕ List Nat

/-- `read_twinkle_doc(f)` including the byte branch (app.py lines 25-30). -/
def read_twinkle_doc (L : LegacyDecoders) (f : UFile) :
    Except PyErr (List (String × JSON)) :=
  read_twinkle_doc_text
    (match f.content with
     | .inl t => t
     | .inr b => _decode_bytes_to_text L b)

/-- The `for f in files` loop of `load_all`: only `read_twinkle_doc` sits in
the `try`, so an exception of `extract_records` aborts the whole call;
a file with no rows contributes neither rows nor an average-map entry. -/
def load_all_aux (L : LegacyDecoders) :
    List UFile → List Record → List (String × List (String × JSON)) →
    List (String × PyErr) →
    Except PyErr
      (List Record × List (String × List (String × JSON)) × List (String × PyErr))
  | [], rows, meta, errs => .ok (rows, meta, errs)
  | f :: rest, rows, meta, errs =>
    match read_twinkle_doc L f with
    | .error e => load_all_aux L rest rows meta (errs ++ [(f.name, e)])
    | .ok kvs =>
      exSeq (extract_records kvs) (fun pr =>
        match pr.1 with
        | [] => load_all_aux L rest rows meta errs
        | r :: _ =>
          load_all_aux L rest (rows ++ pr.1) (dictInsert meta r.source_label pr.2) errs)

/-- `load_all` (app.py lines 84-100); the third component collects the
per-file `st.error` diagnostics. -/
def load_all (L : LegacyDecoders) (files : List UFile) :
    Except PyErr
      (List Record × List (String × List (String × JSON)) × List (String × PyErr)) :=
  load_all_aux L files [] [] []

/-! ## Shape predicates and specification-side mirrors -/

/-- `true` on `.num` leaves only. -/
def isNumJ : JSON → Bool
  | .num _ => true
  | _ => false

/-- A result entry the extractor can process without raising: a mapping
whose `accuracy_mean`, when the key is present, coerces to float, and whose
`file` is a string whenever both fields are present and non-null. -/
def entryOk : JSON → Bool
  | .obj kvs =>
    (match jget kvs "accuracy_mean" with
     | none => true
     | some v => isOkE (floatCoerce v))
    &&
    (match pyGetOpt kvs "file", pyGetOpt kvs "accuracy_mean" with
     | some fv, some _ =>
       (match fv with
        | .str _ => true
        | _ => false)
     | _, _ => true)
  | _ => false

/-- A dataset payload the extractor can process without raising: either not
a mapping at all (skipped wholesale), or a mapping whose `results`, when
present, is an array of processable entries. -/
def payloadOk : JSON → Bool
  | .obj kvs =>
    (match jget kvs "results" with
     | none => true
     | some (.arr items) => items.all entryOk
     | some _ => false)
  | _ => true

/-- The `config`/`model` chain of line 51 does not raise. -/
def configOk (doc : List (String × JSON)) : Bool :=
  match modelOf ((jget doc "config").getD (.obj [])) with
  | .error _ => false
  | .ok mdl => isOkE (nameOf mdl)

/-- A document on which `extract_records` cannot raise. -/
def docOk (doc : List (String × JSON)) : Bool :=
  configOk doc &&
  (match (jget doc "dataset_results").getD (.obj []) with
   | .obj dss => dss.all (fun kv => payloadOk kv.2)
   | _ => false)

/-- Every declared `average_accuracy` of the document is numeric (or absent
or `null`). -/
def payloadDeclOk : JSON → Bool
  | .obj kvs =>
    (match pyGetOpt kvs "average_accuracy" with
     | none => true
     | some (.num _) => true
     | some _ => false)
  | _ => true

/-- `payloadDeclOk` over all dataset payloads. -/
def dsDeclOk (doc : List (String × JSON)) : Bool :=
  match (jget doc "dataset_results").getD (.obj []) with
  | .obj dss => dss.all (fun kv => payloadDeclOk kv.2)
  | _ => true

/-- A file on which the pipeline's extraction step cannot raise (parse
failures are fine — they are caught). -/
def fileSafe (L : LegacyDecoders) (f : UFile) : Bool :=
  match read_twinkle_doc L f with
  | .ok kvs => isOkE (extract_records kvs)
  | .error _ => true

/-- Per-file record contribution, computed independently per file: the
extracted rows of a file whose parse and extraction succeed, else nothing. -/
def corpusRows (L : LegacyDecoders) : List UFile → List Record
  | [] => []
  | f :: fs =>
    (match read_twinkle_doc L f with
     | .ok kvs =>
       (match extract_records kvs with
        | .ok (rs, _) => rs
        | .error _ => [])
     | .error _ => []) ++ corpusRows L fs

/-- Per-file diagnostics, computed independently per file: exactly one
entry, carrying the display name, for each file whose parse fails. -/
def corpusDiags (L : LegacyDecoders) : List UFile → List (String × PyErr)
  | [] => []
  | f :: fs =>
    (match read_twinkle_doc L f with
     | .error e => [(f.name, e)]
     | .ok _ => []) ++ corpusDiags L fs

/-! ## Concrete inputs for counterexamples and witnesses -/

/-- An accepted document with fixed label data and one dataset. -/
def dsDoc (p : String) (payload : JSON) : List (String × JSON) :=
  [("timestamp", .str "T"),
   ("config", .obj [("model", .obj [("name", .str "M")])]),
   ("dataset_results", .obj [(p, payload)])]

/-- `dsDoc` whose dataset has exactly one retained entry. -/
def dsDoc2 (p f : String) (q : ℚ) : List (String × JSON) :=
  dsDoc p (.obj [("results",
    .arr [.obj [("file", .str f), ("accuracy_mean", .num q)]])])

/-- An accepted document text whose single entry carries a list-valued
`accuracy_mean` — `float([])` raises `TypeError`. -/
def c1text : String :=
  "\x7b\"timestamp\": \"t\", \"config\": \x7b\x7d, \"dataset_results\": \x7b\"d\": \x7b\"results\": [\x7b\"file\": \"a\", \"accuracy_mean\": []\x7d]\x7d\x7d\x7d"

/-- The parsed form of `c1text`. -/
def c1kvs : List (String × JSON) :=
  [("timestamp", .str "t"), ("config", .obj []),
   ("dataset_results", .obj [("d", .obj [("results",
     .arr [.obj [("file", .str "a"), ("accuracy_mean", .arr [])]])])])]

/-- A well-shaped document exercising the skip rules: a non-mapping
payload, an entry with no `file`, an entry with no `accuracy_mean`. -/
def c1wdoc : List (String × JSON) :=
  [("timestamp", .str "t"), ("config", .obj []),
   ("dataset_results", .obj
     [("a", .num 5),
      ("b", .obj [("results", .arr
        [.obj [("file", .str "x.json"), ("accuracy_mean", .num (mkRat 1 2))],
         .obj [("accuracy_mean", .num 1)],
         .obj [("file", .str "y")]])])])]

/-- All legacy candidate decoders failing (their behaviour is irrelevant
for text-content files). -/
def noDec : LegacyDecoders :=
  ⟨fun _ => none, fun _ => none, fun _ => none, fun _ => none, fun _ => none⟩

/-- Results with one retained entry (`0.2`) and one entry lacking `file`
but carrying `accuracy_mean` (`0.8`). -/
def c3kvs : List (String × JSON) :=
  [("results", .arr
    [.obj [("file", .str "a.json"), ("accuracy_mean", .num (mkRat 1 5))],
     .obj [("accuracy_mean", .num (mkRat 4 5))]])]

/-- The single record extracted from `dsDoc "d" (.obj c3kvs)`. -/
def c3rows : List Record := [⟨"d", "a", "a.json", mkRat 1 5, "M @ T"⟩]

/-- The spec's average-fallback example entries: three retained entries
with means `0.2`, `0.4`, `0.6`. -/
def c3witems : List JSON :=
  [.obj [("file", .str "a.json"), ("accuracy_mean", .num (mkRat 1 5))],
   .obj [("file", .str "b.json"), ("accuracy_mean", .num (mkRat 2 5))],
   .obj [("file", .str "c.json"), ("accuracy_mean", .num (mkRat 3 5))]]

/-- The spec's average-fallback example payload: `c3witems` and no
declared average. -/
def c3wkvs : List (String × JSON) := [("results", .arr c3witems)]

/-- The rows extracted from `dsDoc "d" (.obj c3wkvs)`. -/
def c3wrows : List Record :=
  [⟨"d", "a", "a.json", mkRat 1 5, "M @ T"⟩,
   ⟨"d", "b", "b.json", mkRat 2 5, "M @ T"⟩,
   ⟨"d", "c", "c.json", mkRat 3 5, "M @ T"⟩]

/-- A dataset whose declared `average_accuracy` is the string `"high"`. -/
def c7doc : List (String × JSON) :=
  dsDoc "d" (.obj [("average_accuracy", .str "high")])

/-- A document with one declared numeric average and one derived average. -/
def c7wdoc : List (String × JSON) :=
  [("timestamp", .str "T"),
   ("config", .obj [("model", .obj [("name", .str "M")])]),
   ("dataset_results", .obj
     [("d1", .obj [("average_accuracy", .num (mkRat 9 10))]),
      ("d2", .obj [("results", .arr
        [.obj [("file", .str "a.json"), ("accuracy_mean", .num (mkRat 1 2))]])])])]

/-- The average map of `extract_records c7wdoc`. -/
def c7wavg : List (String × JSON) :=
  [("d1", .num (mkRat 9 10)), ("d2", .num (listMean [mkRat 1 2]))]

/-- Whole-text parse fails; the second line parses only when the whole
trailing-comma run is stripped (a single comma leaves `...},` behind,
which `json.loads` rejects). -/
def c5text : String :=
  "x\n\x7b\"timestamp\": 1, \"config\": 2, \"dataset_results\": 3\x7d,,"

/-- The mapping obtained from `c5text` by the code. -/
def c5kvs : List (String × JSON) :=
  [("timestamp", .num 1), ("config", .num 2), ("dataset_results", .num 3)]

/-- Line-recovery witness input: three unparseable lines, a parseable
fourth line (after stripping its comma run), and a trailing line the
parser must never inspect. -/
def c5wtext : String := "x\nnot\n1 2\n\x7b\"a\": 1\x7d,,\nrest"

/-- Good file 1 of the three-file isolation scenario. -/
def g1 : UFile :=
  ⟨"a.json", .inl "\x7b\"timestamp\": \"t1\", \"config\": \x7b\"model\": \x7b\"name\": \"m1\"\x7d\x7d, \"dataset_results\": \x7b\"d\": \x7b\"results\": [\x7b\"file\": \"a.json\", \"accuracy_mean\": 0.5\x7d]\x7d\x7d\x7d"⟩

/-- Unparseable file 2 (a JSON array is not a keyed mapping). -/
def g2 : UFile := ⟨"b.json", .inl "[1, 2]"⟩

/-- Good file 3. -/
def g3 : UFile :=
  ⟨"c.json", .inl "\x7b\"timestamp\": \"t3\", \"config\": \x7b\"model\": \x7b\"name\": \"m3\"\x7d\x7d, \"dataset_results\": \x7b\"d\": \x7b\"results\": [\x7b\"file\": \"c.json\", \"accuracy_mean\": 0.25\x7d]\x7d\x7d\x7d"⟩

/-- A file that parses but whose extraction raises (`c1text` content). -/
def fbad : UFile := ⟨"x.json", .inl c1text⟩

/-! ## Theorems -/

/-- C1, counterexample: `c1text` is accepted by the document parser, yet
`extract_records` raises `TypeError` — the entry whose `accuracy_mean` is a
list is not skipped, `float([])` aborts the whole extraction. -/
theorem C1_cex :
    read_twinkle_doc_text c1text = .ok c1kvs ∧
    extract_records c1kvs = .error .typeError :=
  ⟨rfl, rfl⟩

/-- C6, code bug: on input from which no parse attempt succeeds (here the
empty file), the local `obj` of `read_twinkle_doc` is never assigned and
line 44 raises `UnboundLocalError` instead of the intended
`ValueError("not a valid object")`; the non-mapping half of the claim does
hold, as the second conjunct shows. -/
theorem C6_bug_eval :
    read_twinkle_doc_text "" = .error .unboundLocal ∧
    read_twinkle_doc_text "xyz" = .error .unboundLocal ∧
    read_twinkle_doc_text "[1, 2]"
      = .error (.valueError "檔案不是有效的 Twinkle Eval JSON 物件。") :=
  ⟨rfl, rfl, rfl⟩

/-- C8: `_decode_bytes_to_text` is total by construction (it returns a
`String` for every byte list and every behaviour of the five legacy
codecs), and its value is the first success of the ordered candidate list
UTF-8, UTF-16, UTF-16LE, UTF-16BE, Big5, CP950, with a final lossy UTF-8
decode when every candidate fails. -/
theorem C8_decoder_total (L : LegacyDecoders) (b : List Nat) :
    _decode_bytes_to_text L b = (tryCands (decodeCands L) b).getD (utf8Lossy b) := by
  cases h1 : utf8Strict b <;> cases h2 : L.utf16 b <;> cases h3 : L.utf16le b <;>
    cases h4 : L.utf16be b <;> cases h5 : L.big5 b <;> cases h6 : L.cp950 b <;>
      simp [_decode_bytes_to_text, decodeCands, tryCands, h1, h2, h3, h4, h5, h6]

/-! ### Lemmas for the no-throw analysis -/

@[simp] theorem exSeq_ok {α β : Type} (a : α) (f : α → Except PyErr β) :
    exSeq (.ok a) f = f a := rfl

@[simp] theorem exSeq_error {α β : Type} (e : PyErr) (f : α → Except PyErr β) :
    exSeq (.error e) f = .error e := rfl

theorem jget_of_pyGetOpt (kvs : List (String × JSON)) (k : String) (v : JSON)
    (h : pyGetOpt kvs k = some v) : jget kvs k = some v := by
  unfold pyGetOpt at h
  split at h
  · exact absurd h (by simp)
  · exact h

theorem jget_of_hasKey (kvs : List (String × JSON)) (k : String)
    (h : hasKey kvs k = true) : ∃ v, jget kvs k = some v := by
  induction kvs with
  | nil => simp [hasKey] at h
  | cons kv rest ih =>
    cases hk : (kv.1 == k) with
    | true => exact ⟨kv.2, by simp [jget, List.find?, hk]⟩
    | false =>
      have h' : hasKey rest k = true := by simpa [hasKey, hk] using h
      obtain ⟨v, hv⟩ := ih h'
      refine ⟨v, ?_⟩
      simpa [jget, List.find?, hk] using hv

theorem procItemRow_ok (sl dsn : String) (it : JSON) (h : entryOk it = true) :
    isOkE (procItemRow sl dsn it) = true := by
  cases it with
  | obj kvs =>
    unfold entryOk at h
    simp only [Bool.and_eq_true] at h
    obtain ⟨h1, h2⟩ := h
    unfold procItemRow
    cases hf : pyGetOpt kvs "file" with
    | none => simp [hf, isOkE]
    | some fv =>
      cases ha : pyGetOpt kvs "accuracy_mean" with
      | none => simp [hf, ha, isOkE]
      | some av =>
        rw [hf, ha] at h2
        have hj := jget_of_pyGetOpt kvs "accuracy_mean" av ha
        rw [hj] at h1
        cases fv with
        | str s =>
          have h1' : isOkE (floatCoerce av) = true := h1
          cases hco : floatCoerce av with
          | error e => rw [hco] at h1'; simp [isOkE] at h1'
          | ok q => simp [hf, ha, hco, isOkE]
        | null => simp at h2
        | bool b => simp at h2
        | num q => simp at h2
        | arr xs => simp at h2
        | obj o => simp at h2
  | null => simp [entryOk] at h
  | bool b => simp [entryOk] at h
  | num q => simp [entryOk] at h
  | str s => simp [entryOk] at h
  | arr xs => simp [entryOk] at h

theorem rowsOfItems_ok (sl dsn : String) (items : List JSON)
    (h : items.all entryOk = true) : isOkE (rowsOfItems sl dsn items) = true := by
  induction items with
  | nil => rfl
  | cons it rest ih =>
    simp only [List.all_cons, Bool.and_eq_true] at h
    have hit := procItemRow_ok sl dsn it h.1
    have hrs := ih h.2
    unfold rowsOfItems
    cases hp : procItemRow sl dsn it with
    | error e => rw [hp] at hit; simp [isOkE] at hit
    | ok r =>
      cases hrest : rowsOfItems sl dsn rest with
      | error e => rw [hrest] at hrs; simp [isOkE] at hrs
      | ok rs => simp [hp, hrest, isOkE]

theorem avgVals_ok (items : List JSON) (h : items.all entryOk = true) :
    isOkE (avgVals items) = true := by
  induction items with
  | nil => rfl
  | cons it rest ih =>
    simp only [List.all_cons, Bool.and_eq_true] at h
    have hrs := ih h.2
    have h1 := h.1
    unfold avgVals
    cases it with
    | obj kvs =>
      simp only [pyContains]
      cases hk : hasKey kvs "accuracy_mean" with
      | false => simpa using hrs
      | true =>
        obtain ⟨v, hv⟩ := jget_of_hasKey kvs "accuracy_mean" hk
        have h1' : isOkE (floatCoerce v) = true := by
          unfold entryOk at h1
          simp only [Bool.and_eq_true] at h1
          have := h1.1
          rw [hv] at this
          exact this
        cases hco : floatCoerce v with
        | error e => rw [hco] at h1'; simp [isOkE] at h1'
        | ok q =>
          have hg : avgValsGet (.obj kvs) = .ok q := by
            simp [avgValsGet, hv, hco]
          cases hrest : avgVals rest with
          | error e => rw [hrest] at hrs; simp [isOkE] at hrs
          | ok qs => simp [hg, hrest, isOkE]
    | null => simp [entryOk] at h1
    | bool b => simp [entryOk] at h1
    | num q => simp [entryOk] at h1
    | str s => simp [entryOk] at h1
    | arr xs => simp [entryOk] at h1

theorem extractDataset_ok (sl p : String) (payload : JSON)
    (h : payloadOk payload = true) : isOkE (extractDataset sl p payload) = true := by
  cases payload with
  | obj kvs =>
    replace h : (match jget kvs "results" with
      | none => true
      | some (.arr items) => items.all entryOk
      | some _ => false) = true := h
    cases hr : jget kvs "results" with
    | none =>
      rw [hr] at h
      simp only [extractDataset, hr, pyIter, rowsOfItems, pyTruthy, exSeq_ok, isOkE]
      cases pyGetOpt kvs "average_accuracy" <;> rfl
    | some rv =>
      rw [hr] at h
      cases rv with
      | arr items =>
        replace h : items.all entryOk = true := h
        have hrows := rowsOfItems_ok sl (dsName p) items h
        have havg := avgVals_ok items h
        cases hro : rowsOfItems sl (dsName p) items with
        | error e => rw [hro] at hrows; simp [isOkE] at hrows
        | ok rows =>
          cases hm : pyGetOpt kvs "average_accuracy" with
          | some v => simp [extractDataset, hr, hm, pyIter, hro, isOkE]
          | none =>
            cases ht : pyTruthy (JSON.arr items) with
            | false => simp [extractDataset, hr, hm, pyIter, hro, ht, isOkE]
            | true =>
              cases hav : avgVals items with
              | error e => rw [hav] at havg; simp [isOkE] at havg
              | ok vals =>
                simp [extractDataset, hr, hm, pyIter, hro, ht, hav, isOkE]
      | null => simp at h
      | bool b => simp at h
      | num q => simp at h
      | str s => simp at h
      | obj o => simp at h
  | null => simp [extractDataset, pyIter, rowsOfItems, pyTruthy, isOkE]
  | bool b => simp [extractDataset, pyIter, rowsOfItems, pyTruthy, isOkE]
  | num q => simp [extractDataset, pyIter, rowsOfItems, pyTruthy, isOkE]
  | str s => simp [extractDataset, pyIter, rowsOfItems, pyTruthy, isOkE]
  | arr xs => simp [extractDataset, pyIter, rowsOfItems, pyTruthy, isOkE]

theorem extractLoop_ok (sl : String) (dss : List (String × JSON))
    (rows : List Record) (avg : List (String × JSON))
    (h : dss.all (fun kv => payloadOk kv.2) = true) :
    isOkE (extractLoop sl dss rows avg) = true := by
  induction dss generalizing rows avg with
  | nil => rfl
  | cons kv rest ih =>
    obtain ⟨p, payload⟩ := kv
    simp only [List.all_cons, Bool.and_eq_true] at h
    have hds := extractDataset_ok sl p payload h.1
    unfold extractLoop
    cases hd : extractDataset sl p payload with
    | error e => rw [hd] at hds; simp [isOkE] at hds
    | ok pr =>
      obtain ⟨rs, avgM⟩ := pr
      simp only [hd, exSeq_ok]
      exact ih _ _ h.2

theorem sourceLabel_ok (doc : List (String × JSON)) (h : configOk doc = true) :
    isOkE (sourceLabel doc) = true := by
  unfold configOk at h
  unfold sourceLabel
  cases hmo : modelOf ((jget doc "config").getD (.obj [])) with
  | error e => rw [hmo] at h; simp at h
  | ok mdl =>
    rw [hmo] at h
    replace h : isOkE (nameOf mdl) = true := h
    cases hn : nameOf mdl with
    | error e => rw [hn] at h; simp [isOkE] at h
    | ok model => simp [hmo, hn, isOkE]

/-- C1, amended: on a document accepted by the parser whose nested data is
well shaped (`docOk`: `config`/`model` are mappings when present,
`dataset_results` is a mapping, every `results` present in a mapping
payload is an array of mappings whose `accuracy_mean`, when the key is
present, coerces to float and whose `file` is a string whenever both fields
are present), `extract_records` never raises; non-mapping dataset payloads
and entries missing `file` or `accuracy_mean` are merely skipped.  Contrary
to the frozen claim, an entry whose `accuracy_mean` fails float coercion
raises and aborts the whole document (`C1_cex`). -/
theorem C1_never_raises (doc : List (String × JSON)) (h : docOk doc = true) :
    isOkE (extract_records doc) = true := by
  unfold docOk at h
  simp only [Bool.and_eq_true] at h
  obtain ⟨hc, hd⟩ := h
  unfold extract_records
  cases hs : sourceLabel doc with
  | error e =>
    have := sourceLabel_ok doc hc
    rw [hs] at this
    simp [isOkE] at this
  | ok sl =>
    simp only [hs, exSeq_ok]
    cases hds : (jget doc "dataset_results").getD (.obj []) with
    | obj dss =>
      rw [hds] at hd
      exact extractLoop_ok sl dss [] [] hd
    | null => rw [hds] at hd; simp at hd
    | bool b => rw [hds] at hd; simp at hd
    | num q => rw [hds] at hd; simp at hd
    | str s => rw [hds] at hd; simp at hd
    | arr xs => rw [hds] at hd; simp at hd

/-- C1, witness: a well-shaped document containing a non-mapping payload,
an entry without `file` and an entry without `accuracy_mean` satisfies the
hypothesis and extracts without error. -/
theorem C1_witness : docOk c1wdoc = true ∧ isOkE (extract_records c1wdoc) = true :=
  ⟨rfl, C1_never_raises c1wdoc rfl⟩

/-! ### Lemmas for the average-map value analysis -/

theorem dictInsert_all {α : Type} (P : String × α → Bool) (kvs : List (String × α))
    (k : String) (v : α) (h1 : kvs.all P = true) (h2 : P (k, v) = true) :
    (dictInsert kvs k v).all P = true := by
  by_cases hc : kvs.any (fun kv => kv.1 == k) = true
  · simp only [dictInsert, hc, if_true]
    simp only [List.all_eq_true] at h1 ⊢
    intro x hx
    simp only [List.mem_map] at hx
    obtain ⟨kv, hkv, rfl⟩ := hx
    by_cases hk : (kv.1 == k) = true
    · simpa [hk] using h2
    · simp only [hk]
      simpa using h1 kv hkv
  · simp only [dictInsert, hc, if_false]
    simp [List.all_append, h1, h2]

theorem extractDataset_decl_num (sl p : String) (payload : JSON)
    (rs : List Record) (v : JSON)
    (h : payloadDeclOk payload = true)
    (h2 : extractDataset sl p payload = .ok (rs, some v)) : isNumJ v = true := by
  cases payload with
  | obj kvs =>
    replace h : (match pyGetOpt kvs "average_accuracy" with
      | none => true
      | some (.num _) => true
      | some _ => false) = true := h
    simp only [extractDataset] at h2
    cases hiter : pyIter ((jget kvs "results").getD (.arr [])) with
    | none => simp only [hiter] at h2; simp at h2
    | some items =>
      simp only [hiter] at h2
      cases hro : rowsOfItems sl (dsName p) items with
      | error e => simp only [hro, exSeq_error] at h2; simp at h2
      | ok rows =>
        simp only [hro, exSeq_ok] at h2
        cases hm : pyGetOpt kvs "average_accuracy" with
        | some w =>
          rw [hm] at h
          simp only [hm] at h2
          cases w with
          | num q =>
            simp only [Except.ok.injEq, Prod.mk.injEq, Option.some.injEq] at h2
            obtain ⟨-, h22⟩ := h2
            subst h22
            rfl
          | null => simp at h
          | bool b => simp at h
          | str s => simp at h
          | arr xs => simp at h
          | obj o => simp at h
        | none =>
          simp only [hm] at h2
          cases ht : pyTruthy ((jget kvs "results").getD (.arr [])) with
          | false => simp only [ht] at h2; simp at h2
          | true =>
            simp only [ht, if_true] at h2
            cases hav : avgVals items with
            | error e => simp only [hav, exSeq_error] at h2; simp at h2
            | ok vals =>
              simp only [hav, exSeq_ok] at h2
              cases he : vals.isEmpty with
              | true => simp [he] at h2
              | false =>
                simp only [he, Bool.false_eq_true, if_false, Except.ok.injEq,
                  Prod.mk.injEq, Option.some.injEq] at h2
                obtain ⟨-, h22⟩ := h2
                subst h22
                rfl
  | null =>
    simp only [extractDataset, pyIter, rowsOfItems, exSeq_ok, pyTruthy] at h2
    simp at h2
  | bool b =>
    simp only [extractDataset, pyIter, rowsOfItems, exSeq_ok, pyTruthy] at h2
    simp at h2
  | num q =>
    simp only [extractDataset, pyIter, rowsOfItems, exSeq_ok, pyTruthy] at h2
    simp at h2
  | str s =>
    simp only [extractDataset, pyIter, rowsOfItems, exSeq_ok, pyTruthy] at h2
    simp at h2
  | arr xs =>
    simp only [extractDataset, pyIter, rowsOfItems, exSeq_ok, pyTruthy] at h2
    simp at h2

theorem extractLoop_num (sl : String) (dss : List (String × JSON)) :
    ∀ rows avg out, dss.all (fun kv => payloadDeclOk kv.2) = true →
      avg.all (fun kv => isNumJ kv.2) = true →
      extractLoop sl dss rows avg = .ok out →
      out.2.all (fun kv => isNumJ kv.2) = true := by
  induction dss with
  | nil =>
    intro rows avg out h1 h2 h3
    simp only [extractLoop, Except.ok.injEq] at h3
    rw [← h3]
    exact h2
  | cons kv rest ih =>
    intro rows avg out h1 h2 h3
    obtain ⟨p, payload⟩ := kv
    simp only [List.all_cons, Bool.and_eq_true] at h1
    unfold extractLoop at h3
    cases hd : extractDataset sl p payload with
    | error e => rw [hd] at h3; simp at h3
    | ok pr =>
      rw [hd] at h3
      simp only [exSeq_ok] at h3
      obtain ⟨rs, avgM⟩ := pr
      cases avgM with
      | none => exact ih _ _ _ h1.2 h2 h3
      | some v =>
        have hv := extractDataset_decl_num sl p payload rs v h1.1 hd
        exact ih _ _ _ h1.2
          (dictInsert_all (fun kv => isNumJ kv.2) avg (dsName p) v h2 hv) h3

/-- C7, counterexample: a declared `average_accuracy` of `"high"` is stored
verbatim in the average map — the stored leaf is a string, not a float. -/
theorem C7_cex :
    extract_records c7doc = .ok ([], [("d", JSON.str "high")]) ∧
    isNumJ (JSON.str "high") = false :=
  ⟨rfl, rfl⟩

/-- C7, amended: derived averages are always floats, but declared
`average_accuracy` values are stored verbatim with whatever type the
document carries; hence every leaf of the average map is a float exactly
when every declared value present in the document is numeric (`dsDeclOk`). -/
theorem C7_avg_values_floats (doc : List (String × JSON))
    (rows : List Record) (avg : List (String × JSON))
    (h1 : dsDeclOk doc = true)
    (h2 : extract_records doc = .ok (rows, avg)) :
    avg.all (fun kv => isNumJ kv.2) = true := by
  unfold extract_records at h2
  cases hs : sourceLabel doc with
  | error e => rw [hs] at h2; simp at h2
  | ok sl =>
    rw [hs] at h2
    simp only [exSeq_ok] at h2
    unfold dsDeclOk at h1
    cases hds : (jget doc "dataset_results").getD (.obj []) with
    | obj dss =>
      rw [hds] at h1 h2
      replace h1 : dss.all (fun kv => payloadDeclOk kv.2) = true := h1
      replace h2 : extractLoop sl dss [] [] = .ok (rows, avg) := h2
      exact extractLoop_num sl dss [] [] (rows, avg) h1 rfl h2
    | null => rw [hds] at h2; simp at h2
    | bool b => rw [hds] at h2; simp at h2
    | num q => rw [hds] at h2; simp at h2
    | str s => rw [hds] at h2; simp at h2
    | arr xs => rw [hds] at h2; simp at h2

/-- C7, witness: a document with a declared numeric average and a derived
average satisfies the hypotheses; both stored leaves are floats. -/
theorem C7_witness : c7wavg.all (fun kv => isNumJ kv.2) = true :=
  C7_avg_values_floats c7wdoc [⟨"d2", "a", "a.json", mkRat 1 2, "M @ T"⟩] c7wavg rfl rfl

/-! ### Lemmas for the corpus loader -/

theorem load_all_aux_spec (L : LegacyDecoders) (files : List UFile) :
    ∀ rows meta errs, files.all (fileSafe L) = true →
      ∃ meta', load_all_aux L files rows meta errs
        = .ok (rows ++ corpusRows L files, meta', errs ++ corpusDiags L files) := by
  induction files with
  | nil =>
    intro rows meta errs _
    exact ⟨meta, by simp [load_all_aux, corpusRows, corpusDiags]⟩
  | cons f rest ih =>
    intro rows meta errs h
    simp only [List.all_cons, Bool.and_eq_true] at h
    unfold load_all_aux
    cases hr : read_twinkle_doc L f with
    | error e =>
      obtain ⟨m', hm⟩ := ih rows meta (errs ++ [(f.name, e)]) h.2
      refine ⟨m', ?_⟩
      simp [hm, corpusRows, corpusDiags, hr]
    | ok kvs =>
      have hs : isOkE (extract_records kvs) = true := by
        have hfs := h.1
        unfold fileSafe at hfs
        rw [hr] at hfs
        exact hfs
      cases he : extract_records kvs with
      | error e => rw [he] at hs; simp [isOkE] at hs
      | ok pr =>
        obtain ⟨rs, avg⟩ := pr
        cases rs with
        | nil =>
          obtain ⟨m', hm⟩ := ih rows meta errs h.2
          refine ⟨m', ?_⟩
          simp [hm, he, corpusRows, corpusDiags, hr]
        | cons r rs' =>
          obtain ⟨m', hm⟩ := ih (rows ++ (r :: rs'))
            (dictInsert meta r.source_label avg) errs h.2
          refine ⟨m', ?_⟩
          simp [hm, he, corpusRows, corpusDiags, hr]

/-- C2, counterexample: a single file whose document parses but whose
extraction raises (a list-valued `accuracy_mean`) makes `load_all` itself
raise `TypeError` — the `try` of app.py line 88 only covers
`read_twinkle_doc`, so `load_all` can throw to its caller. -/
theorem C2_cex : load_all noDec [fbad] = .error .typeError := rfl

/-- C2, amended: provided extraction raises on no parsed file (`fileSafe`,
which parse failures themselves satisfy), `load_all` returns normally,
its records are the in-order concatenation of the per-file records of the
files that parse, and its diagnostics are exactly one entry per file whose
parse fails, carrying that file's display name.  A file that parses but
whose extraction raises still aborts the whole call (`C2_cex`). -/
theorem C2_parse_failure_isolation (L : LegacyDecoders) (files : List UFile)
    (h : files.all (fileSafe L) = true) :
    ∃ meta, load_all L files
      = .ok (corpusRows L files, meta, corpusDiags L files) := by
  obtain ⟨m', hm⟩ := load_all_aux_spec L files [] [] [] h
  exact ⟨m', by simpa using hm⟩

/-- C2, witness: the spec's three-file scenario — the second file is
unparseable; records come only from files one and three and exactly one
diagnostic names file two. -/
theorem C2_witness :
    (load_all noDec [g1, g2, g3]).toOption.map (fun out => (out.1, out.2.2))
      = some ([⟨"d", "a", "a.json", mkRat 1 2, "m1 @ t1"⟩, ⟨"d", "c", "c.json", mkRat 1 4, "m3 @ t3"⟩],
          [("b.json", PyErr.valueError "檔案不是有效的 Twinkle Eval JSON 物件。")]) := by
  obtain ⟨m, hm⟩ := C2_parse_failure_isolation noDec [g1, g2, g3] rfl
  rw [hm]
  rfl

/-! ### Lemmas for line recovery -/

theorem firstParsed_skip (ls₁ : List String) (l : String) (ls₂ : List String)
    (v : JSON) (h1 : ls₁.all (fun x => (procLine x).isNone) = true)
    (h2 : procLine l = some v) :
    firstParsed (ls₁ ++ l :: ls₂) = some v := by
  induction ls₁ with
  | nil => simp [firstParsed, h2]
  | cons a as ih =>
    simp only [List.all_cons, Bool.and_eq_true] at h1
    have ha : procLine a = none := by
      cases hp : procLine a with
      | none => rfl
      | some w => rw [hp] at h1; simp at h1
    simp only [List.cons_append, firstParsed, ha]
    exact ih h1.2

/-- C5, counterexample: on `c5text` the whole-text parse fails and no line
parses when only a *single* trailing comma is stripped (`specProcLine`,
the spec's reading), yet the parser accepts the document — the code strips
the entire trailing-comma run (`rstripComma`). -/
theorem C5_cex :
    read_twinkle_doc_text c5text = .ok c5kvs ∧
    json_loads (pyStripStr c5text) = none ∧
    (splitLinesStr (pyStripStr c5text)).all (fun l => (specProcLine l).isNone) = true :=
  ⟨rfl, rfl, rfl⟩

/-- C5, amended: when whole-text parsing of the stripped input fails, the
parser walks the lines in order; each line is stripped of surrounding
whitespace and of its whole run of trailing commas (not a single comma),
blank results are skipped, and the first line that parses is used — the
lines after it (`ls₂`, arbitrary here) are never inspected. -/
theorem C5_line_recovery (t : String) (ls₁ ls₂ : List String) (l : String)
    (v : JSON)
    (h1 : json_loads (pyStripStr t) = none)
    (h2 : splitLinesStr (pyStripStr t) = ls₁ ++ l :: ls₂)
    (h3 : ls₁.all (fun x => (procLine x).isNone) = true)
    (h4 : procLine l = some v) :
    obtainedVal (pyStripStr t) = some v := by
  unfold obtainedVal
  simp only [h1, h2]
  exact firstParsed_skip ls₁ l ls₂ v h3 h4

/-- C5, witness: three unparseable lines, then a line that parses once its
comma run is stripped, then a trailing line that is never inspected. -/
theorem C5_witness :
    obtainedVal (pyStripStr c5wtext) = some (.obj [("a", JSON.num 1)]) :=
  C5_line_recovery c5wtext ["x", "not", "1 2"] ["rest"] "\x7b\"a\": 1\x7d,,"
    (.obj [("a", JSON.num 1)]) rfl rfl rfl rfl

/-- C9: whenever the parse stage obtains a keyed mapping, the document is
returned exactly when the three required fields are present, and otherwise
the parser fails with `FormatError("missing required fields")` (the
`ValueError` of app.py line 47). -/
theorem C9_required_fields (t : String) (kvs : List (String × JSON))
    (h : obtainedVal (pyStripStr t) = some (.obj kvs)) :
    read_twinkle_doc_text t =
      if hasKey kvs "timestamp" && hasKey kvs "config" && hasKey kvs "dataset_results"
      then .ok kvs else .error (.valueError "缺少必要欄位") := by
  unfold read_twinkle_doc_text
  simp only [h, validateDoc]

/-- C9, witness: a structurally valid object missing `config` and
`dataset_results` is rejected with the missing-fields error. -/
theorem C9_witness :
    read_twinkle_doc_text "\x7b\"timestamp\": 1\x7d"
      = .error (.valueError "缺少必要欄位") := by
  rw [C9_required_fields "\x7b\"timestamp\": 1\x7d" [("timestamp", JSON.num 1)] rfl]
  rfl

/-! ### Lemmas for single-dataset documents -/

theorem extract_one (p : String) (payload : JSON) :
    extract_records (dsDoc p payload) =
      exSeq (extractDataset "M @ T" p payload) (fun pr =>
        .ok (pr.1, match pr.2 with
          | some v => [(dsName p, v)]
          | none => ([] : List (String × JSON)))) := by
  have hsl : sourceLabel (dsDoc p payload) = .ok "M @ T" := rfl
  unfold extract_records
  rw [hsl]
  simp only [exSeq_ok]
  have hds : (jget (dsDoc p payload) "dataset_results").getD (.obj [])
      = .obj [(p, payload)] := rfl
  rw [hds]
  show extractLoop "M @ T" [(p, payload)] [] [] = _
  unfold extractLoop
  cases hd : extractDataset "M @ T" p payload with
  | error e => simp [hd]
  | ok pr =>
    simp only [hd, exSeq_ok]
    cases hm : pr.2 with
    | some v => simp [extractLoop, hm, dictInsert]
    | none => simp [extractLoop, hm]

theorem listMean_single (q : ℚ) : listMean [q] = q := by
  simp [listMean]

theorem extract_dsDoc2 (p f : String) (q : ℚ) :
    extract_records (dsDoc2 p f q) =
      .ok ([⟨dsName p, removeExt (posixName f), posixName f, q, "M @ T"⟩],
        [(dsName p, JSON.num q)]) := by
  have hd : extractDataset "M @ T" p
      (.obj [("results", .arr [.obj [("file", .str f), ("accuracy_mean", .num q)]])])
      = .ok ([⟨dsName p, removeExt (posixName f), posixName f, q, "M @ T"⟩],
          some (.num (listMean [q]))) := rfl
  unfold dsDoc2
  rw [extract_one, hd]
  simp [listMean_single]

/-- C3, counterexample: with one retained entry (mean `0.2`) and one entry
carrying `accuracy_mean = 0.8` but no `file`, the stored average is `0.5` —
the mean over all entries containing the key — while the mean of the
*retained* entries' values, as the claim states it, is `0.2`. -/
theorem C3_cex :
    extract_records (dsDoc "d" (.obj c3kvs))
      = .ok (c3rows, [("d", JSON.num (listMean [mkRat 1 5, mkRat 4 5]))]) ∧
    listMean [mkRat 1 5, mkRat 4 5] = mkRat 1 2 ∧
    listMean (c3rows.map Record.accuracy_mean) = mkRat 1 5 ∧
    ¬(mkRat 1 2 = (mkRat 1 5 : ℚ)) := by
  refine ⟨rfl, ?_, ?_, ?_⟩
  · simp only [listMean, List.sum_cons, List.sum_nil, List.length_cons,
      List.length_nil, Rat.mkRat_eq_divInt, Rat.divInt_eq_div]
    norm_num
  · simp only [c3rows, List.map, listMean, List.sum_cons, List.sum_nil,
      List.length_cons, List.length_nil, Rat.mkRat_eq_divInt, Rat.divInt_eq_div]
    norm_num
  · simp only [Rat.mkRat_eq_divInt, Rat.divInt_eq_div]
    norm_num

/-- C3, amended: a declared `average_accuracy` that is present and non-null
wins verbatim (a JSON `null` counts as absent); when it is absent, the
average is the mean of the coerced `accuracy_mean` values of *all* entries
of `results` that contain the key — whether or not they were retained as
records — computed when at least one such value exists; with no declared
average and no key-carrying entry the dataset is omitted from the map. -/
theorem C3_average_rule (p : String) (kvs : List (String × JSON))
    (rows : List Record) (avg : List (String × JSON))
    (h : extract_records (dsDoc p (.obj kvs)) = .ok (rows, avg)) :
    (∀ v, pyGetOpt kvs "average_accuracy" = some v → avg = [(dsName p, v)]) ∧
    (pyGetOpt kvs "average_accuracy" = none →
      ∀ items vals, jget kvs "results" = some (.arr items) →
        avgVals items = .ok vals →
        avg = if vals.isEmpty then []
          else [(dsName p, JSON.num (listMean vals))]) ∧
    (pyGetOpt kvs "average_accuracy" = none → jget kvs "results" = none →
      avg = []) := by
  rw [extract_one] at h
  refine ⟨?_, ?_, ?_⟩
  · intro v hv
    simp only [extractDataset, hv] at h
    cases hiter : pyIter ((jget kvs "results").getD (.arr [])) with
    | none => simp only [hiter] at h; simp at h
    | some items =>
      simp only [hiter] at h
      cases hro : rowsOfItems "M @ T" (dsName p) items with
      | error e => simp only [hro, exSeq_error] at h; simp at h
      | ok rows' =>
        simp only [hro, exSeq_ok, Except.ok.injEq, Prod.mk.injEq] at h
        exact h.2.symm
  · intro hv items vals hri havv
    simp only [extractDataset, hv, hri, Option.getD_some, pyIter] at h
    cases hro : rowsOfItems "M @ T" (dsName p) items with
    | error e => simp only [hro, exSeq_error] at h; simp at h
    | ok rows' =>
      simp only [hro, exSeq_ok] at h
      cases items with
      | nil =>
        simp only [avgVals, Except.ok.injEq] at havv
        subst havv
        simp only [pyTruthy, List.isEmpty_nil, Bool.not_true, Bool.false_eq_true,
          if_false, exSeq_ok, Except.ok.injEq, Prod.mk.injEq] at h
        simp only [List.isEmpty_nil, if_true]
        exact h.2.symm
      | cons it rest' =>
        simp only [pyTruthy, List.isEmpty_cons, Bool.not_false, if_true,
          havv, exSeq_ok] at h
        cases he : vals.isEmpty with
        | true =>
          simp only [he, if_true, Except.ok.injEq, Prod.mk.injEq] at h ⊢
          exact h.2.symm
        | false =>
          simp only [he, Bool.false_eq_true, if_false, Except.ok.injEq,
            Prod.mk.injEq] at h ⊢
          exact h.2.symm
  · intro hv hri
    simp [extractDataset, hv, hri, pyIter, rowsOfItems, pyTruthy] at h
    exact h.2

/-- C3, witness: the spec's average-fallback example — three retained
entries with means `0.2`, `0.4`, `0.6`, no declared average — falls into
the computed-mean clause, and that mean is `0.4`. -/
theorem C3_witness :
    ([("d", JSON.num (listMean [mkRat 1 5, mkRat 2 5, mkRat 3 5]))]
        : List (String × JSON)) =
      (if ([mkRat 1 5, mkRat 2 5, mkRat 3 5] : List ℚ).isEmpty then []
       else [(dsName "d", JSON.num (listMean [mkRat 1 5, mkRat 2 5, mkRat 3 5]))]) ∧
    listMean [mkRat 1 5, mkRat 2 5, mkRat 3 5] = mkRat 2 5 := by
  constructor
  · exact (C3_average_rule "d" c3wkvs c3wrows
      [("d", JSON.num (listMean [mkRat 1 5, mkRat 2 5, mkRat 3 5]))] rfl).2.1
      rfl c3witems [mkRat 1 5, mkRat 2 5, mkRat 3 5] rfl rfl
  · simp only [listMean, List.sum_cons, List.sum_nil, List.length_cons,
      List.length_nil, Rat.mkRat_eq_divInt, Rat.divInt_eq_div]
    norm_num

/-- C4, counterexample: for the dataset path `datasets/x/datasets/y` the
emitted record's `dataset` is `"y"` — the portion after the *last*
occurrence of `datasets/` — whereas stripping the leading prefix and
surrounding slashes, as the claim states it, yields `"x/datasets/y"`. -/
theorem C4_cex :
    extract_records (dsDoc2 "datasets/x/datasets/y" "a.json" 1) =
      .ok ([⟨"y", "a", "a.json", 1, "M @ T"⟩], [("y", JSON.num 1)]) ∧
    specDatasetName "datasets/x/datasets/y" = "x/datasets/y" ∧
    ¬(("y" : String) = "x/datasets/y") := by
  refine ⟨?_, rfl, by decide⟩
  rw [extract_dsDoc2]
  rfl

/-- C4, amended: the emitted record's `dataset` is the portion of the path
after the *last* occurrence of `datasets/`, with surrounding slashes
stripped, when the path starts with `datasets/` (the raw path otherwise) —
for paths with a single occurrence this coincides with stripping the
leading prefix; `file` is the entry path's base name and `category` that
base name with its final extension removed, as the claim says, and the
spec's example values hold. -/
theorem C4_derivation (p f : String) (q : ℚ) :
    extract_records (dsDoc2 p f q) =
      .ok ([⟨dsName p, removeExt (posixName f), posixName f, q, "M @ T"⟩],
        [(dsName p, JSON.num q)]) ∧
    dsName "datasets/mmlu/sub" = "mmlu/sub" ∧
    posixName "datasets/mmlu/sub/physics.json" = "physics.json" ∧
    removeExt "physics.json" = "physics" :=
  ⟨extract_dsDoc2 p f q, rfl, rfl, rfl⟩

/-- C10: when the base name of a retained entry's path contains no dot,
removing the final extension is the identity, so the emitted record's
`category` and `file` coincide. -/
theorem C10_no_extension (p f : String) (q : ℚ)
    (h : (posixName f).data.contains '.' = false) :
    extract_records (dsDoc2 p f q) =
      .ok ([⟨dsName p, posixName f, posixName f, q, "M @ T"⟩],
        [(dsName p, JSON.num q)]) := by
  have he : removeExt (posixName f) = posixName f := by
    simp only [removeExt, h, Bool.false_eq_true, if_false]
  rw [extract_dsDoc2, he]

/-- C10, witness: an extension-free base name (`README`) gives
`category = file = "README"`. -/
theorem C10_witness :
    extract_records (dsDoc2 "d" "README" 1) =
      .ok ([⟨"d", "README", "README", 1, "M @ T"⟩], [("d", JSON.num 1)]) := by
  rw [C10_no_extension "d" "README" 1 rfl]
  rfl

end TwinkleSpec
